import Mathlib

/-!
Verification of the PRAPS-2 indicator computation engine
(`compute_indicators/indicators.py`), shallowly embedded in Lean.

Conventions of the embedding:
* a polars dataframe becomes a `List` of records; a nullable column becomes
  an `Option`-typed field; machine floats on the data path (counts, sums,
  ratios) are modelled as exact rationals `ℚ`;
* polars expressions (`filter`, `with_columns`, `group_by/agg`, `unique`,
  `sort`, window `cum_sum`) become explicit list operations with the same
  null semantics (a comparison with a null operand is not truthy, sums and
  `all` skip nulls, `unique(keep=first, maintain_order=True)` keeps the
  first occurrence in order);
* fallible library calls become `Option`/`Except` results.
-/

namespace Praps

/-! ### Geospatial deduplicator: group_pairs and reassign_ids -/

/-- Embedding of `group_pairs` (indicators.py).  The Python code flattens the
pairs, sorts the distinct indices ascending and, for each index `i`, builds
the sorted list of `i` together with every partner appearing in a pair with
`i`, appending the group only when the identical list is not yet present. -/
def group_pairs (pairs : List (Nat × Nat)) : List (List Nat) :=
  let dup_flat : List Nat :=
    List.insertionSort (fun a b => a ≤ b) ((pairs.flatMap (fun p => [p.1, p.2])).dedup)
  dup_flat.foldl
    (fun groups i =>
      let neighbors : List Nat :=
        pairs.flatMap (fun p =>
          if p.1 = i ∨ p.2 = i then [p.1, p.2].filter (fun j => j ≠ i) else [])
      let group : List Nat := List.insertionSort (fun a b => a ≤ b) (i :: neighbors)
      if group ∈ groups then groups else groups ++ [group])
    []

/-- Embedding of `reassign_ids` (indicators.py).  The mapping starts as the
identity on the source indexes; each group then redirects all of its members
to the first element of the group, later groups overriding earlier ones. -/
def reassign_ids (src_indexes : List Nat) (duplicate_groups : List (List Nat)) :
    Nat → Option Nat :=
  duplicate_groups.foldl
    (fun mapping group => fun i => if i ∈ group then group.head? else mapping i)
    (fun i => if i ∈ src_indexes then some i else none)

/-! ### IRI-17 calculator -/

/-- One record of the `sous_projets` survey table, restricted to the columns
read by `iri_17`. -/
structure SousProjetRow where
  DATE : Option String
  LINO1 : Option String
  LINO2 : Option String
  LINO3 : Option String
  LINO4 : Option String
  LINO5 : Option String
  LINO6 : Option String
  VAINO7 : Option ℚ
  VAINO8 : Option ℚ
deriving DecidableEq, Repr

/-- One record of the `activites` (AGR) survey table, restricted to the
columns read by `iri_17`. -/
structure ActiviteRow where
  DATE : Option String
  LAGR1 : Option String
  LAGR2 : Option String
  LAGR3 : Option String
  LAGR4 : Option String
  LAGR5 : Option String
  LAGR6 : Option String
  VAAGR7 : Option ℚ
  VAAGR7A : Option ℚ
deriving DecidableEq, Repr

/-- Normalized indicator row produced by the level-6 calculators
(IRI-16, IRI-17): geography plus an explicit numerator/denominator pair. -/
structure CalcRow where
  indicator_code : String
  date : Option String
  level : Int
  country : Option String
  region : Option String
  province : Option String
  commune : Option String
  localite : Option String
  coordinates : Option String
  numerator : ℚ
  denominator : ℚ
  value : ℚ
deriving DecidableEq, Repr

/-- Rounding to 3 decimals, the embedding of polars `.round(3)`. -/
def round3 (q : ℚ) : ℚ := (round (q * 1000) : ℤ) / 1000

/-- Embedding of `iri_17` (indicators.py): rows of `sous_projets` with
`VAINO7 > 0` and rows of `activites` with `VAAGR7 > 0` are projected to
indicator rows (null numerators coalesced to 0), concatenated, and rows
whose numerator exceeds their denominator are filtered out. -/
def iri_17 (sous_projets : List SousProjetRow) (activites : List ActiviteRow) :
    List CalcRow :=
  let df1 : List CalcRow :=
    (sous_projets.filter (fun r =>
      match r.VAINO7 with
      | some v => decide (0 < v)
      | none => false)).map (fun r =>
        { indicator_code := "IRI-17"
          date := r.DATE
          level := 6
          country := r.LINO1
          region := r.LINO2
          province := r.LINO3
          commune := r.LINO4
          localite := r.LINO5
          coordinates := r.LINO6
          denominator := r.VAINO7.getD 0
          numerator := r.VAINO8.getD 0
          value := round3 ((r.VAINO8.getD 0) / (r.VAINO7.getD 0)) })
  let df2 : List CalcRow :=
    (activites.filter (fun r =>
      match r.VAAGR7 with
      | some v => decide (0 < v)
      | none => false)).map (fun r =>
        { indicator_code := "IRI-17"
          date := r.DATE
          level := 6
          country := r.LAGR1
          region := r.LAGR2
          province := r.LAGR3
          commune := r.LAGR4
          localite := r.LAGR5
          coordinates := r.LAGR6
          denominator := r.VAAGR7.getD 0
          numerator := r.VAAGR7A.getD 0
          value := round3 ((r.VAAGR7A.getD 0) / (r.VAAGR7.getD 0)) })
  (df1 ++ df2).filter (fun r => r.numerator ≤ r.denominator)

/-! ### IRI-16 calculator (schema-drift skip) -/

/-- One record of the `parcs_de_vaccination` table, restricted to the
columns read by `iri_16`. -/
structure ParcRow where
  DATE : Option String
  LVAC1 : Option String
  LVAC2 : Option String
  LVAC3 : Option String
  LVAC4 : Option String
  LVAC5 : Option String
  LVAC6 : Option String
  IGVAC9 : Option String
  IGVAC11 : Option ℚ
  IGVAC12 : Option ℚ
  IGVAC12A : Option (List String)
deriving DecidableEq, Repr

/-- One record of the `gestion_durable` (paysages) table, restricted to the
columns read by `iri_16`. -/
structure DuraRow where
  DATE : Option String
  LODURA1 : Option String
  LODURA2 : Option String
  LODURA3 : Option String
  LODURA4 : Option String
  LODURA5 : Option String
  LODURA6 : Option String
  CRDURA11 : Option String
  CRDURA13 : Option ℚ
  CRDURA14 : Option ℚ
  CRDURA17 : Option (List String)
deriving DecidableEq, Repr

/-- One record of the `points_d_eau` table, restricted to the columns read
by `iri_16`. -/
structure EauRow where
  DATE : Option String
  LPE1 : Option String
  LPE2 : Option String
  LPE3 : Option String
  LPE4 : Option String
  LPE5 : Option String
  LPE7 : Option String
  IGPE6 : Option String
  IGPE10 : Option ℚ
  IGPE11 : Option ℚ
  IGPE11A3 : Option (List String)
deriving DecidableEq, Repr

/-- One record of the `marches_a_betail` table, restricted to the columns
read by `iri_16`. -/
structure MarcheRow where
  DATE : Option String
  LMB1 : Option String
  LMB2 : Option String
  LMB3 : Option String
  LMB4 : Option String
  LMB5 : Option String
  LMB6 : Option String
  IGMB5 : Option String
  IGMB7 : Option ℚ
  IGMB8 : Option ℚ
  IGMBA : Option (List String)
deriving DecidableEq, Repr

/-- The gender-committee condition shared by the four `iri_16` blocks:
member count positive, female members at least 15 percent of members, and
one of the three leadership roles held by a woman.  A polars `when` whose
condition involves a null operand takes the `otherwise(0)` branch, hence
the match to 0 when any operand is null. -/
def councilsWithWomen (members : Option ℚ) (females : Option ℚ)
    (roles : Option (List String)) : ℚ :=
  match members, females, roles with
  | some n, some f, some rs =>
    if 0 < n ∧ n * (15 / 100) ≤ f ∧
        ("Président (e)" ∈ rs ∨ "Sécrétaire (principal-e)" ∈ rs ∨
          "Trésorier (ère)" ∈ rs)
    then 1 else 0
  | _, _, _ => 0

/-- The `parcs_de_vaccination` block of `iri_16`: rows with `IGVAC9 = Oui`
projected to IRI-16 indicator rows. -/
def iri16FromParcs (t : List ParcRow) : List CalcRow :=
  (t.filter (fun r => r.IGVAC9 = some "Oui")).map (fun r =>
    let c := councilsWithWomen r.IGVAC11 r.IGVAC12 r.IGVAC12A
    { indicator_code := "IRI-16", date := r.DATE, level := 6,
      country := r.LVAC1, region := r.LVAC2, province := r.LVAC3,
      commune := r.LVAC4, localite := r.LVAC5, coordinates := r.LVAC6,
      numerator := c, denominator := 1, value := c })

/-- The `gestion_durable` block of `iri_16`: rows with `CRDURA11 = Oui`
projected to IRI-16 indicator rows. -/
def iri16FromDura (t : List DuraRow) : List CalcRow :=
  (t.filter (fun r => r.CRDURA11 = some "Oui")).map (fun r =>
    let c := councilsWithWomen r.CRDURA13 r.CRDURA14 r.CRDURA17
    { indicator_code := "IRI-16", date := r.DATE, level := 6,
      country := r.LODURA1, region := r.LODURA2, province := r.LODURA3,
      commune := r.LODURA4, localite := r.LODURA5, coordinates := r.LODURA6,
      numerator := c, denominator := 1, value := c })

/-- The `points_d_eau` block of `iri_16`: rows with `IGPE6 = Oui` projected
to IRI-16 indicator rows. -/
def iri16FromEaux (t : List EauRow) : List CalcRow :=
  (t.filter (fun r => r.IGPE6 = some "Oui")).map (fun r =>
    let c := councilsWithWomen r.IGPE10 r.IGPE11 r.IGPE11A3
    { indicator_code := "IRI-16", date := r.DATE, level := 6,
      country := r.LPE1, region := r.LPE2, province := r.LPE3,
      commune := r.LPE4, localite := r.LPE5, coordinates := r.LPE7,
      numerator := c, denominator := 1, value := c })

/-- The `marches_a_betail` block of `iri_16`: rows with `IGMB5 = Oui`
projected to IRI-16 indicator rows. -/
def iri16FromMarches (t : List MarcheRow) : List CalcRow :=
  (t.filter (fun r => r.IGMB5 = some "Oui")).map (fun r =>
    let c := councilsWithWomen r.IGMB7 r.IGMB8 r.IGMBA
    { indicator_code := "IRI-16", date := r.DATE, level := 6,
      country := r.LMB1, region := r.LMB2, province := r.LMB3,
      commune := r.LMB4, localite := r.LMB5, coordinates := r.LMB6,
      numerator := c, denominator := 1, value := c })

/-- Embedding of `iri_16` (indicators.py).  Each source table argument is
`none` when the required gender-committee column (`IGVAC12A`, `CRDURA17`,
`IGPE11A3`, `IGMBA` respectively) is absent from its schema, mirroring the
`in df.columns` guards; such a source contributes no block.  The final
`pl.concat` raises a ValueError when the list of contributing blocks is
empty, embedded here as an `Except.error`. -/
def iri_16 (parcs : Option (List ParcRow)) (gestion : Option (List DuraRow))
    (eaux : Option (List EauRow)) (marches : Option (List MarcheRow)) :
    Except String (List CalcRow) :=
  let df1 := parcs.map iri16FromParcs
  let df2 := gestion.map iri16FromDura
  let df3 := eaux.map iri16FromEaux
  let df4 := marches.map iri16FromMarches
  let dataframes := [df1, df2, df3, df4].filterMap id
  if dataframes.isEmpty then Except.error "cannot concat empty list"
  else Except.ok dataframes.flatten

/-- Unwraps an optional source table through its block function; an absent
table contributes no rows. -/
def blockRows {σ : Type} (t : Option (List σ)) (f : List σ → List CalcRow) :
    List CalcRow :=
  match t with
  | none => []
  | some rows => f rows

/-! ### Data model after the combiner and the metadata joiner -/

/-- One row of the combined indicator table (output of
`combine_indicators`), before the metadata join: the union of the
calculator schemas, where a column missing from a source becomes null. -/
structure PreRow where
  indicator_code : String
  date : Option String
  project : Option String
  level : Option Int
  country : Option String
  region : Option String
  province : Option String
  commune : Option String
  localite : Option String
  coordinates : Option String
  numerator : Option ℚ
  denominator : Option ℚ
  value : Option ℚ
deriving DecidableEq, Repr

/-- One entry of the indicators metadata table: code, display name and unit
tag. -/
structure MetaRow where
  code : String
  designation : Option String
  unite : Option String
deriving DecidableEq, Repr

/-- One row of the normalized indicator table after `join_metadata`: the
date is an integer year, and the display name and unit tag are attached
(null when the code matched no metadata entry). -/
structure Row where
  indicator_code : String
  indicator_name : Option String
  unit : Option String
  date : Option Int
  project : Option String
  level : Option Int
  country : Option String
  region : Option String
  province : Option String
  commune : Option String
  localite : Option String
  coordinates : Option String
  numerator : Option ℚ
  denominator : Option ℚ
  value : Option ℚ
deriving DecidableEq, Repr

/-- Parsing of a digit sequence as a non-negative integer, none when the
sequence is empty or holds a non-digit. -/
def yearDigits (cs : List Char) : Option Int :=
  if cs ≠ [] ∧ cs.all Char.isDigit then
    some (cs.foldl (fun acc ch => acc * 10 + ((ch.toNat : Int) - 48)) 0)
  else none

/-- The string-to-integer conversion of `str.slice(0, 4).cast(int)`: the
first four characters, with an optional leading minus sign, must form an
integer. -/
def yearOfString (s : String) : Option Int :=
  match s.toList.take 4 with
  | '-' :: rest => (yearDigits rest).map (fun n => -n)
  | cs => yearDigits cs

/-- The strict cast of the date column in `join_metadata`:
`str.slice(0, 4).cast(int)`.  A null date stays null, the first four
characters of a non-null date are parsed as an integer year, and a
non-null date whose prefix is not an integer raises an
InvalidOperationError in polars, embedded as an `Except.error`. -/
def castYear (d : Option String) : Except String (Option Int) :=
  match d with
  | none => Except.ok none
  | some s =>
    match yearOfString s with
    | some n => Except.ok (some n)
    | none => Except.error "conversion from str to i64 failed"

/-- The projection applied by `join_metadata` to one input row, its
(optional) matching metadata entry and its already-cast year: name and
unit come from the entry or are null, and every other field is carried
over. -/
def joinedRow (r : PreRow) (m : Option MetaRow) (yr : Option Int) : Row :=
  { indicator_code := r.indicator_code
    indicator_name := m.bind MetaRow.designation
    unit := m.bind MetaRow.unite
    date := yr
    project := r.project
    level := r.level
    country := r.country
    region := r.region
    province := r.province
    commune := r.commune
    localite := r.localite
    coordinates := r.coordinates
    numerator := r.numerator
    denominator := r.denominator
    value := r.value }

/-- The rows one left row contributes to the left join: one output row per
matching metadata entry, or a single output row with null name and unit
when no entry matches. -/
def joinChunk (meta : List MetaRow) (r : PreRow) (yr : Option Int) : List Row :=
  match meta.filter (fun m => decide (m.code = r.indicator_code)) with
  | [] => [joinedRow r none yr]
  | ms => ms.map (fun m => joinedRow r (some m) yr)

/-- Embedding of `join_metadata` (indicators.py): a left join on
`indicator_code = code` followed by a select that strictly casts the date
to an integer year.  A row whose non-null date does not start with an
integer makes the strict cast raise, aborting the whole join. -/
def join_metadata (df : List PreRow) (meta : List MetaRow) :
    Except String (List Row) :=
  match df with
  | [] => Except.ok []
  | r :: rs => do
    let yr ← castYear r.date
    let rest ← join_metadata rs meta
    pure (joinChunk meta r yr ++ rest)

/-! ### Legacy-phase loader -/

/-- One row of the legacy PRAPS1 CSV, as parsed. -/
structure PRow where
  Code : String
  annee : Option Int
  Pays : String
  valeur : Option ℚ
deriving DecidableEq, Repr

/-- One output row of the legacy loader. -/
structure P1Row where
  indicator_code : String
  date : Option String
  level : Int
  country : String
  project : String
  value : Option ℚ
deriving DecidableEq, Repr

/-- The module-level COUNTRIES mapping of `load_praps1_data`. -/
def praps1Countries : List (String × String) :=
  [("BF", "Burkina-Faso"), ("MR", "Mauritanie"), ("SN", "Sénégal"),
   ("ML", "Mali"), ("REGIONAL", "Régional"), ("NE", "Niger"), ("TD", "Tchad")]

/-- The fixed set of legacy indicator codes stored as 0-100 percentages. -/
def scaledCodes : List String := ["IR-1", "IRI-17", "IRI-1", "IRI-9", "Reg Int 7"]

/-- The per-row transformation of `load_praps1_data`: build the selected
columns (level 1 for the REGIONAL code and 2 otherwise; the country code
replaced through the mapping, unlisted codes passing through unchanged as
polars `replace` does), then divide the value by 100 exactly for the codes
listed in `scaledCodes`. -/
def load_praps1_row (r : PRow) : P1Row :=
  let base : P1Row :=
    { indicator_code := r.Code
      date := r.annee.map (fun y => toString y ++ "-01-01")
      level := if r.Pays = "REGIONAL" then 1 else 2
      country := (praps1Countries.lookup r.Pays).getD r.Pays
      project := "PRAPS1"
      value := r.valeur }
  if r.Code ∈ scaledCodes then
    { base with value := r.valeur.map (fun v => v / 100) }
  else base

/-- Embedding of `load_praps1_data` (indicators.py), applied to the already
parsed CSV rows (the file read itself is the external I/O collaborator). -/
def load_praps1_data (rows : List PRow) : List P1Row :=
  rows.map load_praps1_row

/-! ### Spatial aggregation -/

/-- The rows an `aggregate_ratios` call operates on: unit `percent` with
both numerator and denominator present. -/
def ratioRows (df : List Row) : List Row :=
  df.filter (fun r =>
    decide (r.unit = some "percent" ∧ r.numerator ≠ none ∧ r.denominator ≠ none))

/-- Embedding of `aggregate_ratios` (indicators.py): group the ratio rows
by the aggregation key, sum numerators and denominators separately per
group (polars sums skip nulls), and divide the sums.  The aggregation
columns of the source become an abstract key function; floats become exact
rationals, so the division is rational division. -/
def aggregate_ratios {κ : Type} [DecidableEq κ] (df : List Row) (key : Row → κ) :
    List (κ × ℚ × ℚ × ℚ) :=
  (((ratioRows df).map key).dedup).map (fun k =>
    let g := (ratioRows df).filter (fun r => decide (key r = k))
    (k, (g.filterMap Row.numerator).sum, (g.filterMap Row.denominator).sum,
      (g.filterMap Row.numerator).sum / (g.filterMap Row.denominator).sum))

/-- The rows an `aggregate_bools` call operates on: unit `boolean`. -/
def boolRows (df : List Row) : List Row :=
  df.filter (fun r => decide (r.unit = some "boolean"))

/-- Embedding of `aggregate_bools` (indicators.py): group the boolean rows
by the aggregation key and aggregate with `cast(Boolean).all()` recast to
float: a value is truthy when non-zero, nulls are skipped by `all`, and the
group aggregates to 1 when every (non-null) value is truthy, else to 0. -/
def aggregate_bools {κ : Type} [DecidableEq κ] (df : List Row) (key : Row → κ) :
    List (κ × ℚ) :=
  (((boolRows df).map key).dedup).map (fun k =>
    let g := (boolRows df).filter (fun r => decide (key r = k))
    (k, if (g.filterMap Row.value).all (fun v => decide (v ≠ 0)) then 1 else 0))

/-- The aggregation-key columns of the level-6 to level-3 roll
(`AGG_COLUMNS` in `spatial_aggregation`). -/
structure AggKey where
  indicator_code : String
  indicator_name : Option String
  unit : Option String
  date : Option Int
  project : Option String
  level : Option Int
  country : Option String
  region : Option String
deriving DecidableEq, Repr

/-- The aggregation key of the level-6 to level-3 roll. -/
def aggKey (r : Row) : AggKey :=
  { indicator_code := r.indicator_code, indicator_name := r.indicator_name,
    unit := r.unit, date := r.date, project := r.project, level := r.level,
    country := r.country, region := r.region }

/-! ### Cumulation -/

/-- A row of the cumulated table: the normalized row plus the four running
columns added by the cumulator. -/
structure CumRow extends Row where
  cumulated_numerator : Option ℚ
  cumulated_denominator : Option ℚ
  cumulated_value : Option ℚ
  cumulated_value_praps2 : Option ℚ
deriving DecidableEq, Repr

/-- The window key of the cumulation passes: `over(["indicator_code",
"country", "region"])`. -/
def groupKey (r : Row) : String × Option String × Option String :=
  (r.indicator_code, r.country, r.region)

/-- Date comparison used to sort before cumulating; a null date sorts
first, as in polars. -/
def dateLeB (a b : Option Int) : Bool :=
  match a, b with
  | none, _ => true
  | some _, none => false
  | some x, some y => decide (x ≤ y)

/-- The sort relation on rows for `sort(by="date")`. -/
def rowDateLe (a b : Row) : Prop := dateLeB a.date b.date = true

instance : DecidableRel rowDateLe := fun _ _ => instDecidableEqBool _ _

instance : IsTotal Row rowDateLe :=
  ⟨by
    intro a b
    unfold rowDateLe dateLeB
    rcases a.date with _ | x <;> rcases b.date with _ | y <;> simp <;> omega⟩

instance : IsTrans Row rowDateLe :=
  ⟨by
    intro a b c
    unfold rowDateLe dateLeB
    rcases a.date with _ | x <;> rcases b.date with _ | y <;>
      rcases c.date with _ | z <;> simp <;> omega⟩

/-- Stable sort by date (`df.sort(by="date")`). -/
def sortByDate (l : List Row) : List Row := List.insertionSort rowDateLe l

/-- The current-phase increment of the counts pass:
`when(project == "PRAPS2").then(value).otherwise(None).fill_null(0)`. -/
def praps2Inc (r : Row) : ℚ :=
  if r.project = some "PRAPS2" then r.value.getD 0 else 0

/-- The running window sums of the counts pass: each row receives the sum
of `value` (nulls as 0) and of the current-phase increments over the rows
of its group seen so far, in list order — the embedding of
`cum_sum().over(["indicator_code", "country", "region"])`. -/
def cumulateGo (acc : List Row) : List Row → List CumRow
  | [] => []
  | r :: rs =>
    let pre := (acc ++ [r]).filter (fun x => decide (groupKey x = groupKey r))
    { toRow := r
      cumulated_numerator := none
      cumulated_denominator := none
      cumulated_value := some ((pre.map (fun x => x.value.getD 0)).sum)
      cumulated_value_praps2 := some ((pre.map praps2Inc).sum) } ::
      cumulateGo (acc ++ [r]) rs

/-- The unit tags treated as counts. -/
def countUnits : List (Option String) := [some "surface", some "weight", some "count"]

/-- The per-level slice of the counts pass: count-unit rows of one level,
sorted by date. -/
def countsSlice (df : List Row) (lvl : Int) : List Row :=
  sortByDate ((df.filter (fun r => decide (r.unit ∈ countUnits))).filter
    (fun r => decide (r.level = some lvl)))

/-- Embedding of `cumulate_counts` (indicators.py): the three per-level
slices are cumulated and concatenated, then `cumulated_value_praps2` is
forced to null on every legacy-phase row. -/
def cumulate_counts (df : List Row) : List CumRow :=
  (([1, 2, 3] : List Int).flatMap (fun lvl => cumulateGo [] (countsSlice df lvl))).map
    (fun c => if c.project = some "PRAPS1" then
      { c with cumulated_value_praps2 := none } else c)

/-- The running window sums of the ratios pass: cumulated numerator and
denominator per group, in list order. -/
def ratiosGo (acc : List Row) : List Row → List CumRow
  | [] => []
  | r :: rs =>
    let pre := (acc ++ [r]).filter (fun x => decide (groupKey x = groupKey r))
    { toRow := r
      cumulated_numerator := some ((pre.map (fun x => x.numerator.getD 0)).sum)
      cumulated_denominator := some ((pre.map (fun x => x.denominator.getD 0)).sum)
      cumulated_value := none
      cumulated_value_praps2 := none } ::
      ratiosGo (acc ++ [r]) rs

/-- Null-propagating division, the embedding of the polars expression
`cumulated_numerator / cumulated_denominator` on nullable columns (a null
operand yields null).  Division by a present zero is rational division in
this model, where polars floats would produce inf or NaN. -/
def divOpt (a b : Option ℚ) : Option ℚ :=
  match a, b with
  | some x, some y => some (x / y)
  | _, _ => none

/-- Embedding of `cumulate_ratios` (indicators.py): current-phase percent
rows are cumulated per level, legacy-phase percent rows are appended with
null cumulated sums (diagonal concat), and both cumulated-value columns are
set to the quotient of the cumulated sums. -/
def cumulate_ratios (df : List Row) : List CumRow :=
  let part1 := ([1, 2, 3] : List Int).flatMap (fun lvl =>
    ratiosGo [] (sortByDate (df.filter (fun r =>
      decide (r.unit = some "percent" ∧ r.project = some "PRAPS2" ∧
        r.level = some lvl)))))
  let part2 : List CumRow := (df.filter (fun r =>
    decide (r.unit = some "percent" ∧ r.project = some "PRAPS1"))).map
    (fun r => { toRow := r, cumulated_numerator := none,
                cumulated_denominator := none, cumulated_value := none,
                cumulated_value_praps2 := none })
  (part1 ++ part2).map (fun c =>
    { c with
      cumulated_value := divOpt c.cumulated_numerator c.cumulated_denominator
      cumulated_value_praps2 := divOpt c.cumulated_numerator c.cumulated_denominator })

/-- Embedding of `cumulate_bools` (indicators.py): both cumulated-value
columns simply echo the row's own value. -/
def cumulate_bools (df : List Row) : List CumRow :=
  (df.filter (fun r => decide (r.unit = some "boolean"))).map (fun r =>
    { toRow := r, cumulated_numerator := none, cumulated_denominator := none,
      cumulated_value := r.value, cumulated_value_praps2 := r.value })

/-- Null-first comparison of optional strings for the final sort. -/
def optStrLtB (a b : Option String) : Bool :=
  match a, b with
  | none, some _ => true
  | some x, some y => decide (x < y)
  | _, _ => false

/-- The lexicographic sort relation of the final
`sort(by=["indicator_code", "country", "region", "date"])`. -/
def finalLe (a b : CumRow) : Bool :=
  if a.indicator_code ≠ b.indicator_code then decide (a.indicator_code < b.indicator_code)
  else if a.country ≠ b.country then optStrLtB a.country b.country
  else if a.region ≠ b.region then optStrLtB a.region b.region
  else dateLeB a.date b.date

/-- Embedding of `cumulate_indicators` (indicators.py): union of the three
unit-class passes, sorted by code, country, region and date. -/
def cumulate_indicators (df : List Row) : List CumRow :=
  List.insertionSort (fun a b => finalLe a b = true)
    (cumulate_counts df ++ cumulate_ratios df ++ cumulate_bools df)

/-! ### Missing-value filler -/

/-- Maximum of a list of integers, none when the list is empty — the
embedding of a polars column `max()` over the non-null entries. -/
def listMaxQ : List Int → Option Int
  | [] => none
  | x :: xs => some (xs.foldl max x)

/-- The maximum year present in the `date` column. -/
def maxDate (df : List Row) : Option Int := listMaxQ (df.filterMap Row.date)

/-- The embedding of `range(2021, m + 1)`. -/
def yearsRange (m : Int) : List Int :=
  (List.range (m - 2020).toNat).map (fun k : Nat => 2021 + (k : Int))

/-- The deduplication key of the filler:
`subset=["indicator_code", "date", "country", "region"]`. -/
def rowKey (r : Row) : String × Option Int × Option String × Option String :=
  (r.indicator_code, r.date, r.country, r.region)

/-- The embedding of `unique(subset=..., keep="first", maintain_order=True)`:
keep each row whose key has not been seen before, in order. -/
def uniqueByKey (seen : List (String × Option Int × Option String × Option String)) :
    List Row → List Row
  | [] => []
  | r :: rs =>
    if rowKey r ∈ seen then uniqueByKey seen rs
    else r :: uniqueByKey (rowKey r :: seen) rs

/-- The test `df_["level"].max() >= n` on the rows of one indicator code.
When every level is null the Python comparison `None >= n` would raise;
that situation is modelled as a false test and is unreachable after
aggregation, where every row carries a non-null level. -/
def levelAtLeast (dfc : List Row) (n : Int) : Bool :=
  match listMaxQ (dfc.filterMap Row.level) with
  | some m => decide (n ≤ m)
  | none => false

/-- The placeholder row template (`baserow`) of `fill_missing_values`:
everything below the indicator identity and period is null; the phase tag
is the legacy phase up to 2021 and the current phase afterwards.  The four
locality-geography columns were dropped by the aggregator before this
stage and are carried here as null. -/
def fillerBase (code : String) (name unit : Option String) (y : Int) : Row :=
  { indicator_code := code
    indicator_name := name
    unit := unit
    date := some y
    project := some (if y ≤ 2021 then "PRAPS1" else "PRAPS2")
    level := none
    country := none
    region := none
    province := none
    commune := none
    localite := none
    coordinates := none
    numerator := none
    denominator := none
    value := none }

/-- The known regions of one country for one indicator:
`df_.filter(pl.col("country") == country)["region"].unique()`.  Comparing
with a null country matches nothing, as the polars equality does. -/
def regionsFor (dfc : List Row) (c : Option String) : List (Option String) :=
  ((dfc.filter (fun r => decide (c ≠ none ∧ r.country = c))).map Row.region).dedup

/-- The placeholder rows materialized by `fill_missing_values`: for every
distinct indicator code, every year from 2021 to the maximum year, the
single regional row, a country row per known level-2 country when the
indicator has level-2 data, and a region row per known region of the
country when the indicator has level-3 data (skipping empty region names). -/
def fillerRows (df : List Row) (m : Int) : List Row :=
  let countries := ((df.filter (fun r => decide (r.level = some 2))).map Row.country).dedup
  ((df.map Row.indicator_code).dedup).flatMap (fun code =>
    let dfc := df.filter (fun r => decide (r.indicator_code = code))
    let name := dfc.head?.bind Row.indicator_name
    let unit := dfc.head?.bind Row.unit
    (yearsRange m).flatMap (fun y =>
      let base := fillerBase code name unit y
      { base with level := some 1, country := some "Régional" } ::
        countries.flatMap (fun c =>
          (if levelAtLeast dfc 2 then [{ base with level := some 2, country := c }]
           else []) ++
          (if levelAtLeast dfc 3 then
            (regionsFor dfc c).filterMap (fun reg =>
              match reg with
              | none => none
              | some s =>
                if s = "" then none
                else some { base with level := some 3, country := c, region := some s })
           else []))))

/-- Embedding of `fill_missing_values` (indicators.py): concatenate the
real rows with the placeholder rows and deduplicate on (code, date,
country, region) keeping the first occurrence, so real rows win.  When the
`date` column has no value at all, `range(2021, None + 1)` raises in the
source, embedded as a `none` result. -/
def fill_missing_values (df : List Row) : Option (List Row) :=
  match maxDate df with
  | none => none
  | some m => some (uniqueByKey [] (df ++ fillerRows df m))

/-! ### Sample rows for concrete instances -/

/-- A level-6 percent row with numerator 1 and denominator 2. -/
def sampleRatioA : Row :=
  { indicator_code := "IRI-17", indicator_name := some "Femmes formées",
    unit := some "percent", date := some 2023, project := some "PRAPS2",
    level := some 6, country := some "Mali", region := some "Gao",
    province := none, commune := none, localite := some "Site A",
    coordinates := none, numerator := some 1, denominator := some 2,
    value := some (1 / 2) }

/-- A level-6 percent row with numerator 3 and denominator 4, sharing the
aggregation key of `sampleRatioA`. -/
def sampleRatioB : Row :=
  { sampleRatioA with
    localite := some "Site B"
    numerator := some 3
    denominator := some 4
    value := some (3 / 4) }

/-- A level-6 boolean row with a true value. -/
def sampleBoolT : Row :=
  { indicator_code := "IRI-15", indicator_name := some "Cadre fonctionnel",
    unit := some "boolean", date := some 2023, project := some "PRAPS2",
    level := some 6, country := some "Niger", region := some "Zinder",
    province := none, commune := none, localite := some "Site A",
    coordinates := none, numerator := none, denominator := none,
    value := some 1 }

/-- A second true boolean row with the same aggregation key. -/
def sampleBoolT2 : Row := { sampleBoolT with localite := some "Site B" }

/-- A false boolean row with the same aggregation key. -/
def sampleBoolF : Row := { sampleBoolT with localite := some "Site C", value := some 0 }

/-- A combined-table row with a well-formed date, for the metadata join. -/
def sampleJoinRow : PreRow :=
  { indicator_code := "IR-2", date := some "2023-01-01", project := some "PRAPS2",
    level := some 2, country := some "Tchad", region := none, province := none,
    commune := none, localite := none, coordinates := none, numerator := none,
    denominator := none, value := some 120 }

/-- A combined-table row whose date does not start with an integer, making
the strict cast of the metadata join raise. -/
def sampleBadDateRow : PreRow :=
  { sampleJoinRow with date := some "abcd-01-01" }

/-- A legacy-phase boolean row with a non-null value. -/
def samplePraps1Bool : Row :=
  { indicator_code := "IRI-15", indicator_name := some "Cadre fonctionnel",
    unit := some "boolean", date := some 2021, project := some "PRAPS1",
    level := some 2, country := some "Mali", region := none, province := none,
    commune := none, localite := none, coordinates := none, numerator := none,
    denominator := none, value := some 1 }

/-- The cumulated row the booleans pass produces from `samplePraps1Bool`. -/
def samplePraps1BoolCum : CumRow :=
  { toRow := samplePraps1Bool, cumulated_numerator := none,
    cumulated_denominator := none, cumulated_value := some 1,
    cumulated_value_praps2 := some 1 }

/-- A current-phase count row for 2022. -/
def sampleCountY1 : Row :=
  { indicator_code := "IR-2", indicator_name := some "Petits ruminants",
    unit := some "count", date := some 2022, project := some "PRAPS2",
    level := some 2, country := some "Mali", region := none, province := none,
    commune := none, localite := none, coordinates := none, numerator := none,
    denominator := none, value := some 5 }

/-- A current-phase count row for 2023 in the same cumulation group. -/
def sampleCountY2 : Row := { sampleCountY1 with date := some 2023, value := some 7 }

/-- The cumulated row the counts pass produces from `sampleCountY1`. -/
def sampleCountCum1 : CumRow :=
  { toRow := sampleCountY1, cumulated_numerator := none,
    cumulated_denominator := none, cumulated_value := some 5,
    cumulated_value_praps2 := some 5 }

/-- The cumulated row the counts pass produces from `sampleCountY2`. -/
def sampleCountCum2 : CumRow :=
  { toRow := sampleCountY2, cumulated_numerator := none,
    cumulated_denominator := none, cumulated_value := some 12,
    cumulated_value_praps2 := some 12 }

/-! ### Helper lemmas -/

/-- find? is the head of the filtered list. -/
theorem find?_eq_head?_filter {α : Type} (p : α → Bool) (l : List α) :
    l.find? p = (l.filter p).head? := by
  induction l with
  | nil => rfl
  | cons a t ih =>
    by_cases h : p a
    · rw [List.find?_cons_of_pos _ h, List.filter_cons_of_pos h]
      rfl
    · rw [List.find?_cons_of_neg _ h, List.filter_cons_of_neg h, ih]

/-- Under a unique-key metadata table, the left-join chunk for one row
is exactly one output row, built from the first (only) match. -/
theorem joinChunk_single (meta : List MetaRow) (r : PreRow) (yr : Option Int)
    (h : (meta.filter (fun m => decide (m.code = r.indicator_code))).length ≤ 1) :
    joinChunk meta r yr =
    [joinedRow r (meta.find? (fun m => decide (m.code = r.indicator_code))) yr] := by
  unfold joinChunk
  rw [find?_eq_head?_filter]
  rcases hf : meta.filter (fun m => decide (m.code = r.indicator_code)) with _ | ⟨m, ms⟩
  · rw [hf]
    rfl
  · rw [hf] at h ⊢
    have hlen : ms.length = 0 := by
      simp only [List.length_cons] at h
      omega
    have hms : ms = [] := List.length_eq_zero.mp hlen
    subst hms
    rfl

/-- On a date whose non-null prefix parses, the strict cast succeeds and
returns the parsed prefix. -/
theorem castYear_ok (d : Option String)
    (h : ∀ s, d = some s → (yearOfString s).isSome = true) :
    castYear d = Except.ok (d.bind (fun s => yearOfString s)) := by
  cases d with
  | none => rfl
  | some s =>
    have hs := h s rfl
    unfold castYear
    rcases hn : yearOfString s with _ | n
    · rw [hn] at hs
      simp at hs
    · simp [hn]

/-- A row of the counts cumulation carries the source row it was built
from. -/
theorem mem_cumulateGo {acc l : List Row} {c : CumRow}
    (h : c ∈ cumulateGo acc l) : c.toRow ∈ l := by
  induction l generalizing acc with
  | nil => simp [cumulateGo] at h
  | cons r rs ih =>
    simp only [cumulateGo] at h
    rcases List.mem_cons.mp h with h | h
    · subst h
      simp
    · exact List.mem_cons_of_mem _ (ih h)

/-- A row of the ratios cumulation carries the source row it was built
from. -/
theorem mem_ratiosGo {acc l : List Row} {c : CumRow}
    (h : c ∈ ratiosGo acc l) : c.toRow ∈ l := by
  induction l generalizing acc with
  | nil => simp [ratiosGo] at h
  | cons r rs ih =>
    simp only [ratiosGo] at h
    rcases List.mem_cons.mp h with h | h
    · subst h
      simp
    · exact List.mem_cons_of_mem _ (ih h)

/-- The counts cumulation preserves the number of rows. -/
theorem cumulateGo_length (acc l : List Row) :
    (cumulateGo acc l).length = l.length := by
  induction l generalizing acc with
  | nil => rfl
  | cons r rs ih => simp [cumulateGo, ih]

/-- Index characterization of the counts cumulation: the row at position
`i` carries the source row at position `i` together with the group-windowed
prefix sums over the history (`acc`) extended by the first `i + 1` rows. -/
theorem cumulateGo_get (acc l : List Row) (i : Nat) (h : i < l.length)
    (h2 : i < (cumulateGo acc l).length) :
    (cumulateGo acc l).get ⟨i, h2⟩ =
      { toRow := l.get ⟨i, h⟩
        cumulated_numerator := none
        cumulated_denominator := none
        cumulated_value := some ((((acc ++ l.take (i + 1)).filter
          (fun x => decide (groupKey x = groupKey (l.get ⟨i, h⟩)))).map
          (fun x => x.value.getD 0)).sum)
        cumulated_value_praps2 := some ((((acc ++ l.take (i + 1)).filter
          (fun x => decide (groupKey x = groupKey (l.get ⟨i, h⟩)))).map
          praps2Inc).sum) } := by
  induction l generalizing acc i with
  | nil => exact absurd h (Nat.not_lt_zero i)
  | cons r rs ih =>
    cases i with
    | zero => rfl
    | succ i =>
      have hi : i < rs.length := Nat.lt_of_succ_lt_succ h
      have hi2 : i < (cumulateGo (acc ++ [r]) rs).length := by
        rw [cumulateGo_length]
        exact hi
      have hstep : (cumulateGo acc (r :: rs)).get ⟨i + 1, h2⟩ =
          (cumulateGo (acc ++ [r]) rs).get ⟨i, hi2⟩ := rfl
      rw [hstep, ih (acc ++ [r]) i hi hi2]
      simp [List.append_assoc]

/-- Prefix sums of group increments over a date-sorted list are monotone
along the dates of a fixed group whose values are all non-negative (rows
of other groups need no bound — the window only sums this group). -/
theorem cumul_prefix_mono (s : List Row) (hs : List.Sorted rowDateLe s)
    (i j : Nat) (hi : i < s.length) (hj : j < s.length)
    (hkey : groupKey (s.get ⟨i, hi⟩) = groupKey (s.get ⟨j, hj⟩))
    (hnn : ∀ x ∈ s, groupKey x = groupKey (s.get ⟨j, hj⟩) →
      0 ≤ x.value.getD 0)
    (y1 y2 : Int) (hd1 : (s.get ⟨i, hi⟩).date = some y1)
    (hd2 : (s.get ⟨j, hj⟩).date = some y2) (hy : y1 < y2) :
    (((s.take (i + 1)).filter (fun x =>
      decide (groupKey x = groupKey (s.get ⟨i, hi⟩)))).map
      (fun x => x.value.getD 0)).sum ≤
    (((s.take (j + 1)).filter (fun x =>
      decide (groupKey x = groupKey (s.get ⟨j, hj⟩)))).map
      (fun x => x.value.getD 0)).sum := by
  have hij : i < j := by
    rcases Nat.lt_trichotomy i j with h | h | h
    · exact h
    · exfalso
      subst h
      rw [hd1] at hd2
      injection hd2 with hd2
      omega
    · exfalso
      have hrel := hs.rel_get_of_lt
        (show (⟨j, hj⟩ : Fin s.length) < ⟨i, hi⟩ from h)
      unfold rowDateLe dateLeB at hrel
      rw [hd1, hd2] at hrel
      simp at hrel
      omega
  rw [hkey]
  have htake : (s.take (j + 1)).take (i + 1) = s.take (i + 1) := by
    rw [List.take_take]
    congr 1
    omega
  have hsplit : ((((s.take (j + 1)).filter (fun x =>
      decide (groupKey x = groupKey (s.get ⟨j, hj⟩)))).map
      (fun x => x.value.getD 0)).sum) =
      ((((s.take (j + 1)).take (i + 1)).filter (fun x =>
        decide (groupKey x = groupKey (s.get ⟨j, hj⟩)))).map
        (fun x => x.value.getD 0)).sum +
      ((((s.take (j + 1)).drop (i + 1)).filter (fun x =>
        decide (groupKey x = groupKey (s.get ⟨j, hj⟩)))).map
        (fun x => x.value.getD 0)).sum := by
    conv_lhs => rw [← List.take_append_drop (i + 1) (s.take (j + 1))]
    rw [List.filter_append, List.map_append, List.sum_append]
  rw [hsplit, htake]
  have hnonneg : 0 ≤ ((((s.take (j + 1)).drop (i + 1)).filter (fun x =>
      decide (groupKey x = groupKey (s.get ⟨j, hj⟩)))).map
      (fun x => x.value.getD 0)).sum := by
    apply List.sum_nonneg
    intro q hq
    obtain ⟨x, hx, rfl⟩ := List.mem_map.mp hq
    have hx0 := List.of_mem_filter hx
    have hx1 : x ∈ (s.take (j + 1)).drop (i + 1) := List.mem_of_mem_filter hx
    have hx2 : x ∈ s.take (j + 1) := List.drop_subset _ _ hx1
    have hx3 : x ∈ s := List.take_subset _ _ hx2
    exact hnn x hx3 (by simpa using hx0)
  linarith

/-- A left fold by max dominates its seed and every list element. -/
theorem foldl_max_le (xs : List Int) (x : Int) :
    x ≤ xs.foldl max x ∧ ∀ a ∈ xs, a ≤ xs.foldl max x := by
  induction xs generalizing x with
  | nil => exact ⟨le_refl x, by simp⟩
  | cons y ys ih =>
    obtain ⟨ih1, ih2⟩ := ih (max x y)
    refine ⟨?_, ?_⟩
    · rw [List.foldl_cons]
      exact le_trans (le_max_left x y) ih1
    · intro a ha
      rw [List.foldl_cons]
      rcases List.mem_cons.mp ha with rfl | h2
      · exact le_trans (le_max_right x a) ih1
      · exact ih2 a h2

/-- Every member of a list is bounded by its `listMaxQ` maximum. -/
theorem le_listMaxQ (a : Int) (l : List Int) (ha : a ∈ l) :
    ∃ m, listMaxQ l = some m ∧ a ≤ m := by
  cases l with
  | nil => simp at ha
  | cons x xs =>
    refine ⟨xs.foldl max x, rfl, ?_⟩
    rcases List.mem_cons.mp ha with rfl | h2
    · exact (foldl_max_le xs a).1
    · exact (foldl_max_le xs x).2 a h2

/-- Every year between 2021 and the maximum year is generated by the
filler's year range. -/
theorem mem_yearsRange {y m : Int} (h1 : 2021 ≤ y) (h2 : y ≤ m) :
    y ∈ yearsRange m := by
  have h3 : (y - 2021).toNat ∈ List.range (m - 2020).toNat :=
    List.mem_range.mpr (by omega)
  have h4 : 2021 + (((y - 2021).toNat : Int)) = y := by omega
  have h5 := List.mem_map_of_mem (fun k : Nat => 2021 + (k : Int)) h3
  simp only [] at h5
  rw [h4] at h5
  unfold yearsRange
  exact h5

/-- A row with a level at least `n` makes the filler's level test true. -/
theorem levelAtLeast_of_mem {dfc : List Row} {r : Row} (hr : r ∈ dfc)
    {lv n : Int} (hl : r.level = some lv) (hn : n ≤ lv) :
    levelAtLeast dfc n = true := by
  have hmem : lv ∈ dfc.filterMap Row.level := List.mem_filterMap.mpr ⟨r, hr, hl⟩
  obtain ⟨m, hm, hle⟩ := le_listMaxQ lv _ hmem
  unfold levelAtLeast
  rw [hm]
  simp
  omega

/-- Keep-first deduplication leaves, for every key not yet seen, exactly
the first occurrence of that key; a key already seen is dropped
entirely. -/
theorem uniqueByKey_filter (l : List Row)
    (seen : List (String × Option Int × Option String × Option String))
    (k : String × Option Int × Option String × Option String) :
    (uniqueByKey seen l).filter (fun r => decide (rowKey r = k)) =
      if k ∈ seen then []
      else (l.filter (fun r => decide (rowKey r = k))).take 1 := by
  induction l generalizing seen with
  | nil =>
    simp only [uniqueByKey, List.filter_nil]
    split <;> rfl
  | cons r rs ih =>
    simp only [uniqueByKey]
    by_cases hseen : rowKey r ∈ seen
    · rw [if_pos hseen, ih seen]
      by_cases hk : rowKey r = k
      · have hks : k ∈ seen := hk ▸ hseen
        rw [if_pos hks, if_pos hks]
      · rw [List.filter_cons_of_neg (by simp [hk])]
    · rw [if_neg hseen]
      by_cases hk : rowKey r = k
      · rw [List.filter_cons_of_pos (by simp [hk])]

        rw [ih (rowKey r :: seen)]
        rw [if_pos (by rw [← hk]; exact List.mem_cons_self _ _)]
        rw [if_neg (by rw [← hk]; exact hseen)]
        rw [List.filter_cons_of_pos (by simp [hk])]
        rfl
      · rw [List.filter_cons_of_neg (by simp [hk])]
        rw [ih (rowKey r :: seen)]
        rw [List.filter_cons_of_neg (by simp [hk])]
        by_cases hks : k ∈ seen
        · rw [if_pos (List.mem_cons_of_mem _ hks), if_pos hks]
        · rw [if_neg ?_, if_neg hks]
          intro hmem
          rcases List.mem_cons.mp hmem with he | he
          · exact hk he.symm
          · exact hks he

/-- A nonempty list truncated to its first element has length one. -/
theorem take_one_length_of_ne_nil {α : Type} {l : List α} (h : l ≠ []) :
    (l.take 1).length = 1 := by
  cases l with
  | nil => exact absurd rfl h
  | cons a t => rfl

/-- C1: the deduplicator is claimed to merge transitively: for duplicate
pairs (A,B) and (B,C) all of A, B, C should receive the smallest row index
of their connected component.  On the chain `[(0,1),(1,2)]` the code instead
produces intermediate groups `[[0,1],[0,1,2],[1,2]]` whose sequential
reassignment maps 0 to 0 but 1 and 2 to 1: records 0 and 1 form a duplicate
pair yet end with different infrastructure ids, contradicting both the claim
and the docstring of `identify_duplicates`. -/
theorem group_pairs_transitivity_bug :
    group_pairs [(0, 1), (1, 2)] = [[0, 1], [0, 1, 2], [1, 2]] ∧
    reassign_ids [0, 1, 2] (group_pairs [(0, 1), (1, 2)]) 0 = some 0 ∧
    reassign_ids [0, 1, 2] (group_pairs [(0, 1), (1, 2)]) 1 = some 1 ∧
    reassign_ids [0, 1, 2] (group_pairs [(0, 1), (1, 2)]) 2 = some 1 := by
  refine ⟨by decide, by decide, by decide, by decide⟩

/-- C6 counterexample: when all four source tables lack their required
gender-committee columns, every block is skipped and `pl.concat` is called
on an empty list, which raises — the calculator does not return an empty
result in that case, refuting the claim that it never raises an error. -/
theorem iri_16_all_absent_errors :
    iri_16 none none none none = Except.error "cannot concat empty list" := rfl

/-- C6 (amended): whenever at least one of the four IRI-16 source tables has
its required gender-committee column, the calculator succeeds and returns
exactly the concatenation of the rows computed from the tables that do have
their required columns; only when all four tables lack them does the final
concatenation raise. -/
theorem iri_16_skips_absent_sources (parcs : Option (List ParcRow))
    (gestion : Option (List DuraRow)) (eaux : Option (List EauRow))
    (marches : Option (List MarcheRow))
    (h : parcs ≠ none ∨ gestion ≠ none ∨ eaux ≠ none ∨ marches ≠ none) :
    iri_16 parcs gestion eaux marches =
      Except.ok (blockRows parcs iri16FromParcs ++ blockRows gestion iri16FromDura ++
        blockRows eaux iri16FromEaux ++ blockRows marches iri16FromMarches) := by
  rcases parcs with _ | p <;> rcases gestion with _ | g <;>
    rcases eaux with _ | e <;> rcases marches with _ | m <;>
    simp_all [iri_16, blockRows]

/-- Witness for C6 (amended) at a concrete input: one present table with no
eligible rows and three absent tables yield an empty successful result. -/
theorem iri_16_skips_absent_sources_witness :
    iri_16 (some []) none none none = Except.ok [] := by
  have h := iri_16_skips_absent_sources (some []) none none none
    (Or.inl (by simp))
  simpa [blockRows, iri16FromParcs] using h

/-- C10: the IRI-17 calculator never outputs a row whose numerator exceeds
its denominator — every source row where the trained-female count is larger
than the trained total is dropped entirely by the final filter. -/
theorem iri_17_numerator_le_denominator (sous_projets : List SousProjetRow)
    (activites : List ActiviteRow) (r : CalcRow)
    (hr : r ∈ iri_17 sous_projets activites) :
    r.numerator ≤ r.denominator := by
  have := List.of_mem_filter hr
  simpa using this

/-- Witness for C10 at a concrete input: a `sous_projets` record with 0
women out of 4 trained survives the filter and satisfies the bound. -/
theorem iri_17_numerator_le_denominator_witness :
    ({ indicator_code := "IRI-17", date := some "2023-01-01", level := 6,
       country := some "Mali", region := some "Gao", province := none,
       commune := none, localite := none, coordinates := none,
       numerator := 0, denominator := 4, value := (0 : ℚ) } : CalcRow).numerator ≤
    ({ indicator_code := "IRI-17", date := some "2023-01-01", level := 6,
       country := some "Mali", region := some "Gao", province := none,
       commune := none, localite := none, coordinates := none,
       numerator := 0, denominator := 4, value := (0 : ℚ) } : CalcRow).denominator := by
  refine iri_17_numerator_le_denominator
    [{ DATE := some "2023-01-01", LINO1 := some "Mali", LINO2 := some "Gao",
       LINO3 := none, LINO4 := none, LINO5 := none, LINO6 := none,
       VAINO7 := some 4, VAINO8 := some 0 }] [] _ ?_
  simp [iri_17, round3]

/-- C7 counterexample: on an input table holding a row whose date string
does not start with an integer, the strict cast of the metadata join
raises, so the join returns no rows at all instead of preserving the row
count — the claim fails for that input table. -/
theorem join_metadata_nonnumeric_date_errors :
    join_metadata [sampleBadDateRow] [] =
      Except.error "conversion from str to i64 failed" := rfl

/-- C7 (amended): when the metadata table has at most one entry per
indicator code and every non-null date of the input table starts with an
integer (the domain on which the strict cast succeeds), the metadata join
succeeds and maps each input row to exactly one output row — the row count
is preserved and no row is dropped or duplicated — and a row whose code
matches no entry is kept with null name and unit and all its other fields
carried over.  On a table with a non-castable date the join raises
instead. -/
theorem join_metadata_preserves_rows_amended (df : List PreRow)
    (meta : List MetaRow)
    (hmeta : ∀ c : String, (meta.filter (fun m => decide (m.code = c))).length ≤ 1)
    (hdates : ∀ r ∈ df, ∀ s, r.date = some s → (yearOfString s).isSome = true) :
    ∃ out, join_metadata df meta = Except.ok out ∧
      out = df.map (fun r => joinedRow r
        (meta.find? (fun m => decide (m.code = r.indicator_code)))
        (r.date.bind (fun s => yearOfString s))) ∧
      out.length = df.length ∧
      ∀ (r : PreRow) (yr : Option Int),
        (joinedRow r none yr).indicator_name = none ∧
        (joinedRow r none yr).unit = none ∧
        (joinedRow r none yr).indicator_code = r.indicator_code ∧
        (joinedRow r none yr).project = r.project ∧
        (joinedRow r none yr).level = r.level ∧
        (joinedRow r none yr).country = r.country ∧
        (joinedRow r none yr).region = r.region ∧
        (joinedRow r none yr).numerator = r.numerator ∧
        (joinedRow r none yr).denominator = r.denominator ∧
        (joinedRow r none yr).value = r.value := by
  have hok : ∀ l : List PreRow,
      (∀ r ∈ l, ∀ s, r.date = some s → (yearOfString s).isSome = true) →
      join_metadata l meta = Except.ok (l.map (fun r => joinedRow r
        (meta.find? (fun m => decide (m.code = r.indicator_code)))
        (r.date.bind (fun s => yearOfString s)))) := by
    intro l
    induction l with
    | nil => intro _; rfl
    | cons r rs ih =>
      intro hl
      have hr := castYear_ok r.date (fun s hs => hl r (List.mem_cons_self _ _) s hs)
      have hrs := ih (fun x hx s hs => hl x (List.mem_cons_of_mem _ hx) s hs)
      show Except.bind (castYear r.date) _ = _
      rw [hr]
      show Except.bind (join_metadata rs meta) _ = _
      rw [hrs]
      show Except.ok (joinChunk meta r (r.date.bind (fun s => yearOfString s)) ++ _) = _
      rw [joinChunk_single meta r _ (hmeta r.indicator_code), List.map_cons]
      rfl
  refine ⟨_, hok df hdates, rfl, List.length_map _ _, ?_⟩
  intro r yr
  exact ⟨rfl, rfl, rfl, rfl, rfl, rfl, rfl, rfl, rfl, rfl⟩

/-- Witness for C7 (amended) at a concrete input: one row with a
well-formed date joined against an empty metadata table succeeds, is kept,
and the row count is preserved. -/
theorem join_metadata_preserves_rows_amended_witness :
    ∃ out, join_metadata [sampleJoinRow] [] = Except.ok out ∧
      out = [sampleJoinRow].map (fun r => joinedRow r
        (List.find? (fun m => decide (m.code = r.indicator_code)) [])
        (r.date.bind (fun s => yearOfString s))) ∧
      out.length = [sampleJoinRow].length ∧
      ∀ (r : PreRow) (yr : Option Int),
        (joinedRow r none yr).indicator_name = none ∧
        (joinedRow r none yr).unit = none ∧
        (joinedRow r none yr).indicator_code = r.indicator_code ∧
        (joinedRow r none yr).project = r.project ∧
        (joinedRow r none yr).level = r.level ∧
        (joinedRow r none yr).country = r.country ∧
        (joinedRow r none yr).region = r.region ∧
        (joinedRow r none yr).numerator = r.numerator ∧
        (joinedRow r none yr).denominator = r.denominator ∧
        (joinedRow r none yr).value = r.value := by
  refine join_metadata_preserves_rows_amended [sampleJoinRow] []
    (fun c => by simp) ?_
  intro r hr s hs
  have hr2 : r = sampleJoinRow := by simpa using hr
  subst hr2
  have hs2 : s = "2023-01-01" := by
    simp [sampleJoinRow] at hs
    exact hs.symm
  subst hs2
  decide

/-- C8: the legacy loader divides the value by 100 exactly for the codes
IR-1, IRI-17, IRI-1, IRI-9 and Reg Int 7, passing every other code through
unchanged; it assigns level 1 and country `Régional` to the REGIONAL code
and level 2 with the mapped full country name to every other country code
(an unlisted code passes through the replacement unchanged). -/
theorem load_praps1_data_spec (rows : List PRow) (r : PRow) (hr : r ∈ rows) :
    load_praps1_row r ∈ load_praps1_data rows ∧
    ((load_praps1_row r).value =
      if r.Code ∈ scaledCodes then r.valeur.map (fun v => v / 100) else r.valeur) ∧
    (r.Pays = "REGIONAL" →
      (load_praps1_row r).level = 1 ∧ (load_praps1_row r).country = "Régional") ∧
    (r.Pays ≠ "REGIONAL" →
      (load_praps1_row r).level = 2 ∧
      (load_praps1_row r).country = (praps1Countries.lookup r.Pays).getD r.Pays) := by
  refine ⟨List.mem_map_of_mem _ hr, ?_, ?_, ?_⟩
  · simp only [load_praps1_row]
    by_cases hc : r.Code ∈ scaledCodes <;> simp [hc]
  · intro hp
    simp only [load_praps1_row, hp]
    constructor
    · by_cases hc : r.Code ∈ scaledCodes <;> simp [hc]
    · by_cases hc : r.Code ∈ scaledCodes <;> simp [hc] <;> decide
  · intro hp
    simp only [load_praps1_row]
    constructor
    · by_cases hc : r.Code ∈ scaledCodes <;> simp [hc, hp]
    · by_cases hc : r.Code ∈ scaledCodes <;> simp [hc]

/-- Witness for C8 at a concrete input: an IR-1 row for Senegal is scaled
from 50 to 0.5 and mapped to level 2, country Sénégal. -/
theorem load_praps1_data_spec_witness :
    (load_praps1_row { Code := "IR-1", annee := some 2019, Pays := "SN", valeur := some 50 }).value =
      some (1 / 2) ∧
    (load_praps1_row { Code := "IR-1", annee := some 2019, Pays := "SN", valeur := some 50 }).level = 2 ∧
    (load_praps1_row { Code := "IR-1", annee := some 2019, Pays := "SN", valeur := some 50 }).country =
      "Sénégal" := by
  have h := load_praps1_data_spec
    [{ Code := "IR-1", annee := some 2019, Pays := "SN", valeur := some 50 }]
    { Code := "IR-1", annee := some 2019, Pays := "SN", valeur := some 50 }
    (List.mem_singleton.mpr rfl)
  have hv := h.2.1
  have hl := h.2.2.2 (by decide)
  refine ⟨?_, hl.1, ?_⟩
  · rw [hv]
    norm_num [scaledCodes]
  · rw [hl.2]
    decide

/-- C3: spatial aggregation of percent rows with both components present is
the weighted ratio — each output group carries the sum of the numerators,
the sum of the denominators, and their quotient — and on the two sample
rows (1,2) and (3,4) it produces 4/6, which differs from the arithmetic
mean of the per-row ratios. -/
theorem aggregate_ratios_weighted :
    (∀ (κ : Type) [DecidableEq κ] (df : List Row) (key : Row → κ)
        (e : κ × ℚ × ℚ × ℚ), e ∈ aggregate_ratios df key →
      e.2.1 = (((ratioRows df).filter (fun r => decide (key r = e.1))).filterMap
        Row.numerator).sum ∧
      e.2.2.1 = (((ratioRows df).filter (fun r => decide (key r = e.1))).filterMap
        Row.denominator).sum ∧
      e.2.2.2 = (((ratioRows df).filter (fun r => decide (key r = e.1))).filterMap
          Row.numerator).sum /
        (((ratioRows df).filter (fun r => decide (key r = e.1))).filterMap
          Row.denominator).sum) ∧
    aggregate_ratios [sampleRatioA, sampleRatioB] aggKey =
      [(aggKey sampleRatioA, 4, 6, 4 / 6)] ∧
    ((4 : ℚ) / 6 ≠ (1 / 2 + 3 / 4) / 2) := by
  refine ⟨?_, ?_, by norm_num⟩
  · intro κ inst df key e he
    obtain ⟨k, hk, rfl⟩ := List.mem_map.mp he
    exact ⟨rfl, rfl, rfl⟩
  · simp [aggregate_ratios, ratioRows, sampleRatioA, sampleRatioB, aggKey,
      List.filter_cons, List.filterMap_cons, List.dedup_cons_of_mem,
      List.dedup_cons_of_not_mem]
    norm_num

/-- Witness for C3 at a concrete input: the numerator sum of the sample
group equals 4, obtained by instantiating the weighted-aggregation theorem
at the sample rows. -/
theorem aggregate_ratios_weighted_witness :
    (((ratioRows [sampleRatioA, sampleRatioB]).filter
      (fun r => decide (aggKey r = aggKey sampleRatioA))).filterMap Row.numerator).sum =
      (4 : ℚ) := by
  have hmem : (aggKey sampleRatioA, (4 : ℚ), (6 : ℚ), (4 : ℚ) / 6) ∈
      aggregate_ratios [sampleRatioA, sampleRatioB] aggKey := by
    rw [aggregate_ratios_weighted.2.1]
    exact List.mem_singleton.mpr rfl
  exact (aggregate_ratios_weighted.1 _ _ _ _ hmem).1.symm

/-- C5: spatial aggregation of boolean rows is the logical AND encoded as
1.0/0.0 — a group containing a false (zero) value aggregates to 0 and a
group whose values are all true (non-zero) aggregates to 1. -/
theorem aggregate_bools_and :
    ∀ (κ : Type) [DecidableEq κ] (df : List Row) (key : Row → κ) (e : κ × ℚ),
      e ∈ aggregate_bools df key →
      ((∃ r ∈ boolRows df, key r = e.1 ∧ r.value = some 0) → e.2 = 0) ∧
      ((∀ r ∈ boolRows df, key r = e.1 → ∀ q : ℚ, r.value = some q → q ≠ 0) →
        e.2 = 1) := by
  intro κ inst df key e he
  obtain ⟨k, hk, rfl⟩ := List.mem_map.mp he
  constructor
  · rintro ⟨r, hr, hkey, hval⟩
    have hfalse : (((boolRows df).filter (fun x => decide (key x = k))).filterMap
        Row.value).all (fun v => decide (v ≠ 0)) = false := by
      rcases hb : (((boolRows df).filter (fun x => decide (key x = k))).filterMap
          Row.value).all (fun v => decide (v ≠ 0)) with _ | _
      · rfl
      · exfalso
        have h0 : (0 : ℚ) ∈ ((boolRows df).filter
            (fun x => decide (key x = k))).filterMap Row.value := by
          refine List.mem_filterMap.mpr ⟨r, ?_, hval⟩
          exact List.mem_filter.mpr ⟨hr, by simpa using hkey⟩
        have := List.all_eq_true.mp hb 0 h0
        simp at this
    show (if (((boolRows df).filter (fun x => decide (key x = k))).filterMap
        Row.value).all (fun v => decide (v ≠ 0)) = true then (1 : ℚ) else 0) = 0
    rw [hfalse]
    simp
  · intro hall
    have htrue : (((boolRows df).filter (fun x => decide (key x = k))).filterMap
        Row.value).all (fun v => decide (v ≠ 0)) = true := by
      refine List.all_eq_true.mpr ?_
      intro v hv
      obtain ⟨r, hr, hval⟩ := List.mem_filterMap.mp hv
      have hr1 := List.mem_of_mem_filter hr
      have hr2 := List.of_mem_filter hr
      simpa using hall r hr1 (by simpa using hr2) v hval
    show (if (((boolRows df).filter (fun x => decide (key x = k))).filterMap
        Row.value).all (fun v => decide (v ≠ 0)) = true then (1 : ℚ) else 0) = 1
    rw [htrue]
    simp

/-- Witness for C5 at concrete inputs: a group {1, 1, 0} aggregates to 0
and a group {1, 1} aggregates to 1, via the AND-aggregation theorem. -/
theorem aggregate_bools_and_witness :
    ((aggKey sampleBoolT, (0 : ℚ)) : _ × ℚ).2 = 0 ∧
    ((aggKey sampleBoolT, (1 : ℚ)) : _ × ℚ).2 = 1 := by
  constructor
  · exact (aggregate_bools_and _ [sampleBoolT, sampleBoolT2, sampleBoolF] aggKey
      (aggKey sampleBoolT, 0) (by decide)).1
      ⟨sampleBoolF, by decide, by decide, by decide⟩
  · refine (aggregate_bools_and _ [sampleBoolT, sampleBoolT2] aggKey
      (aggKey sampleBoolT, 1) (by decide)).2 ?_
    intro r hr hkey q hq
    have : r = sampleBoolT ∨ r = sampleBoolT2 := by
      have h := List.mem_of_mem_filter hr
      simpa using h
    rcases this with rfl | rfl <;> simp [sampleBoolT, sampleBoolT2] at hq <;> simp [← hq]

/-- C2 counterexample: after cumulation of a single legacy-phase boolean
row with value 1, the output row still carries the legacy phase tag but its
`cumulated_value_praps2` column is 1, not null — the boolean pass echoes
the value instead of resetting it, so the claim fails for boolean rows. -/
theorem cumulate_phase_reset_counterexample :
    ¬ (∀ r ∈ cumulate_indicators [samplePraps1Bool],
        r.project = some "PRAPS1" → r.cumulated_value_praps2 = none) := by
  decide

/-- C2 (amended): after cumulation, `cumulated_value_praps2` is null for
every legacy-phase row of the count/weight/surface and percent unit
classes; for legacy-phase boolean rows it instead echoes the row's own
value (hence it is null only when the value itself is null). -/
theorem cumulate_phase_reset_amended (df : List Row) (r : CumRow)
    (hr : r ∈ cumulate_indicators df) (hp : r.project = some "PRAPS1") :
    (r.unit ≠ some "boolean" → r.cumulated_value_praps2 = none) ∧
    (r.unit = some "boolean" → r.cumulated_value_praps2 = r.value) := by
  have hr' : r ∈ cumulate_counts df ++ cumulate_ratios df ++ cumulate_bools df :=
    (List.perm_insertionSort _ _).mem_iff.mp hr
  rcases List.mem_append.mp hr' with hr0 | hbool
  · rcases List.mem_append.mp hr0 with hcount | hratio
    · -- counts pass: the final column forces null on legacy rows
      obtain ⟨c, hc, rfl⟩ := List.mem_map.mp hcount
      obtain ⟨lvl, _, hcg⟩ := List.mem_flatMap.mp hc
      have htr : c.toRow ∈ countsSlice df lvl := mem_cumulateGo hcg
      have hunit : c.toRow.unit ∈ countUnits := by
        have h1 : c.toRow ∈ (df.filter (fun x => decide (x.unit ∈ countUnits))).filter
            (fun x => decide (x.level = some lvl)) :=
          (List.perm_insertionSort _ _).mem_iff.mp htr
        have h2 : c.toRow ∈ df.filter (fun x => decide (x.unit ∈ countUnits)) :=
          List.mem_of_mem_filter h1
        have h3 := List.of_mem_filter h2
        simpa using h3
      have hcp : c.project = some "PRAPS1" := by
        by_cases hc1 : c.project = some "PRAPS1"
        · exact hc1
        · exfalso
          apply hc1
          simpa [hc1] using hp
      constructor
      · intro _
        simp [hcp]
      · intro hb
        exfalso
        have hbu : c.toRow.unit = some "boolean" := by
          by_cases hc1 : c.project = some "PRAPS1" <;> simpa [hc1] using hb
        rw [hbu] at hunit
        simp [countUnits] at hunit
    · -- ratios pass: legacy rows get null over null
      obtain ⟨c, hc, rfl⟩ := List.mem_map.mp hratio
      rcases List.mem_append.mp hc with hc1 | hc2
      · exfalso
        obtain ⟨lvl, _, hcg⟩ := List.mem_flatMap.mp hc1
        have htr : c.toRow ∈ sortByDate (df.filter (fun x =>
            decide (x.unit = some "percent" ∧ x.project = some "PRAPS2" ∧
              x.level = some lvl))) := mem_ratiosGo hcg
        have h1 := (List.perm_insertionSort _ _).mem_iff.mp htr
        have h2 := List.of_mem_filter h1
        have hpr : c.toRow.project = some "PRAPS2" := by
          simp at h2
          exact h2.2.1
        have : c.toRow.project = some "PRAPS1" := by simpa using hp
        rw [this] at hpr
        simp at hpr
      · obtain ⟨x, hx, rfl⟩ := List.mem_map.mp hc2
        have hxu : x.unit = some "percent" := by
          have := List.of_mem_filter hx
          simp at this
          exact this.1
        constructor
        · intro _
          simp [divOpt]
        · intro hb
          exfalso
          have : x.unit = some "boolean" := by simpa using hb
          rw [hxu] at this
          simp at this
  · -- booleans pass: both cumulated columns echo the value
    obtain ⟨x, hx, rfl⟩ := List.mem_map.mp hbool
    have hxu : x.unit = some "boolean" := by
      have := List.of_mem_filter hx
      simpa using this
    exact ⟨fun hb => absurd (by simpa using hxu) hb, fun _ => rfl⟩

/-- C9: within one cumulation group (fixed indicator code, country, region
and geography level) of count/weight/surface rows whose values are all
non-negative (nulls as 0), the `cumulated_value` column is monotonically
non-decreasing in the year: a row of a later year carries a cumulated
value at least as large as that of any earlier year. -/
theorem cumulate_counts_monotone (df : List Row) (r1 r2 : CumRow)
    (h1 : r1 ∈ cumulate_counts df) (h2 : r2 ∈ cumulate_counts df)
    (hnn : ∀ x ∈ df, x.unit ∈ countUnits → x.level = r1.level →
      groupKey x = groupKey r1.toRow → 0 ≤ x.value.getD 0)
    (hkey : groupKey r1.toRow = groupKey r2.toRow)
    (hlvl : r1.level = r2.level)
    (y1 y2 : Int) (hd1 : r1.date = some y1) (hd2 : r2.date = some y2)
    (hy : y1 < y2) :
    ∃ c1 c2, r1.cumulated_value = some c1 ∧ r2.cumulated_value = some c2 ∧
      c1 ≤ c2 := by
  simp only [cumulate_counts] at h1 h2
  obtain ⟨c1, hc1, rfl⟩ := List.mem_map.mp h1
  obtain ⟨c2, hc2, rfl⟩ := List.mem_map.mp h2
  obtain ⟨lvl1, hl1m, hg1⟩ := List.mem_flatMap.mp hc1
  obtain ⟨lvl2, hl2m, hg2⟩ := List.mem_flatMap.mp hc2
  have hcv1 : (if c1.project = some "PRAPS1" then
      { c1 with cumulated_value_praps2 := none } else c1).cumulated_value =
      c1.cumulated_value := by
    split <;> rfl
  have hcv2 : (if c2.project = some "PRAPS1" then
      { c2 with cumulated_value_praps2 := none } else c2).cumulated_value =
      c2.cumulated_value := by
    split <;> rfl
  have hdate1 : c1.toRow.date = some y1 := by
    by_cases hp : c1.project = some "PRAPS1" <;> simpa [hp] using hd1
  have hdate2 : c2.toRow.date = some y2 := by
    by_cases hp : c2.project = some "PRAPS1" <;> simpa [hp] using hd2
  have hk : groupKey c1.toRow = groupKey c2.toRow := by
    by_cases hp1 : c1.project = some "PRAPS1" <;>
      by_cases hp2 : c2.project = some "PRAPS1" <;>
      simpa [hp1, hp2] using hkey
  have hlv : c1.toRow.level = c2.toRow.level := by
    by_cases hp1 : c1.project = some "PRAPS1" <;>
      by_cases hp2 : c2.project = some "PRAPS1" <;>
      simpa [hp1, hp2] using hlvl
  have slice_level : ∀ (lvl : Int) (c : CumRow),
      c ∈ cumulateGo [] (countsSlice df lvl) → c.toRow.level = some lvl := by
    intro lvl c hc
    have htr := mem_cumulateGo hc
    have hmem : c.toRow ∈ (df.filter (fun x =>
        decide (x.unit ∈ countUnits))).filter
        (fun x => decide (x.level = some lvl)) :=
      (List.perm_insertionSort _ _).mem_iff.mp htr
    have := List.of_mem_filter hmem
    simpa using this
  have hL1 : c1.toRow.level = some lvl1 := slice_level lvl1 c1 hg1
  have hlvls : lvl1 = lvl2 := by
    have e2 := slice_level lvl2 c2 hg2
    rw [hL1, e2] at hlv
    exact Option.some_injective _ hlv
  subst hlvls
  have hsort : List.Sorted rowDateLe (countsSlice df lvl1) := by
    simp only [countsSlice, sortByDate]
    exact List.sorted_insertionSort _ _
  have hfixlvl : (if c1.project = some "PRAPS1" then
      { c1 with cumulated_value_praps2 := none } else c1).level =
      c1.toRow.level := by
    split <;> rfl
  have hfixrow : (if c1.project = some "PRAPS1" then
      { c1 with cumulated_value_praps2 := none } else c1).toRow =
      c1.toRow := by
    split <;> rfl
  obtain ⟨⟨i, hi⟩, hgi⟩ := List.mem_iff_get.mp hg1
  obtain ⟨⟨j, hj⟩, hgj⟩ := List.mem_iff_get.mp hg2
  have hi' : i < (countsSlice df lvl1).length := by
    rw [← cumulateGo_length ([]) (countsSlice df lvl1)]
    exact hi
  have hj' : j < (countsSlice df lvl1).length := by
    rw [← cumulateGo_length ([]) (countsSlice df lvl1)]
    exact hj
  have hchar1 := cumulateGo_get [] (countsSlice df lvl1) i hi' hi
  have hchar2 := cumulateGo_get [] (countsSlice df lvl1) j hj' hj
  rw [hgi] at hchar1
  rw [hgj] at hchar2
  simp only [List.nil_append] at hchar1 hchar2
  have ht1 : c1.toRow = (countsSlice df lvl1).get ⟨i, hi'⟩ := by rw [hchar1]
  have ht2 : c2.toRow = (countsSlice df lvl1).get ⟨j, hj'⟩ := by rw [hchar2]
  rw [ht1, ht2] at hk
  rw [ht1] at hdate1
  rw [ht2] at hdate2
  have hnn' : ∀ x ∈ countsSlice df lvl1,
      groupKey x = groupKey ((countsSlice df lvl1).get ⟨j, hj'⟩) →
      0 ≤ x.value.getD 0 := by
    intro x hx hgk
    have hx1 : x ∈ (df.filter (fun r =>
        decide (r.unit ∈ countUnits))).filter
        (fun r => decide (r.level = some lvl1)) :=
      (List.perm_insertionSort _ _).mem_iff.mp hx
    have hx2 : x ∈ df.filter (fun r => decide (r.unit ∈ countUnits)) :=
      List.mem_of_mem_filter hx1
    have hxdf : x ∈ df := List.mem_of_mem_filter hx2
    have hxu : x.unit ∈ countUnits := by
      have := List.of_mem_filter hx2
      simpa using this
    have hxl : x.level = some lvl1 := by
      have := List.of_mem_filter hx1
      simpa using this
    apply hnn x hxdf hxu
    · rw [hfixlvl, hL1]
      exact hxl
    · rw [hfixrow, ht1, hk]
      exact hgk
  refine ⟨_, _, ?_, ?_,
    cumul_prefix_mono (countsSlice df lvl1) hsort i j hi' hj' hk hnn'
      y1 y2 hdate1 hdate2 hy⟩
  · rw [hcv1, hchar1]
  · rw [hcv2, hchar2]

/-- Witness for C9 at a concrete input: two count rows of one group with
values 5 (2022) and 7 (2023) cumulate to 5 and then 12, and 5 is at most
12. -/
theorem cumulate_counts_monotone_witness :
    ∃ c1 c2, sampleCountCum1.cumulated_value = some c1 ∧
      sampleCountCum2.cumulated_value = some c2 ∧ c1 ≤ c2 := by
  have hout : cumulate_counts [sampleCountY1, sampleCountY2] =
      [sampleCountCum1, sampleCountCum2] := by
    simp [cumulate_counts, countsSlice, sortByDate, countUnits, sampleCountY1,
      sampleCountY2, sampleCountCum1, sampleCountCum2, cumulateGo, groupKey,
      praps2Inc, rowDateLe, dateLeB]
    norm_num
  refine cumulate_counts_monotone [sampleCountY1, sampleCountY2]
    sampleCountCum1 sampleCountCum2 ?_ ?_ ?_ ?_ ?_ 2022 2023 rfl rfl
    (by norm_num)
  · rw [hout]
    simp
  · rw [hout]
    simp
  · intro x hx hu hl hg
    rcases List.mem_cons.mp hx with rfl | hx2
    · norm_num [sampleCountY1]
    · rcases List.mem_cons.mp hx2 with rfl | hx3
      · norm_num [sampleCountY2, sampleCountY1]
      · simp at hx3
  · rfl
  · rfl

/-- Witness for C2 (amended) at a concrete input: the cumulated legacy
boolean row echoes its own value into `cumulated_value_praps2`. -/
theorem cumulate_phase_reset_amended_witness :
    samplePraps1BoolCum.cumulated_value_praps2 = samplePraps1BoolCum.value := by
  exact (cumulate_phase_reset_amended [samplePraps1Bool] samplePraps1BoolCum
    (by decide) (by decide)).2 (by decide)

/-- C4: after the missing-value filler runs (on a post-aggregation table,
where every row carries a level), for every indicator code, every year
between 2021 and the maximum year present, and every country with a
level-2 row for that indicator, the output holds exactly one row keyed
(code, year, country, null region); and when real rows already exist for
that key, the first of them is kept unchanged — fillers never replace it. -/
theorem fill_missing_values_complete (df : List Row) (code : String)
    (c : String) (y m : Int)
    (hlev : ∀ r ∈ df, r.level ≠ none)
    (r0 : Row) (hr0 : r0 ∈ df) (hcode : r0.indicator_code = code)
    (hl0 : r0.level = some 2) (hc0 : r0.country = some c)
    (hmax : maxDate df = some m) (hy1 : 2021 ≤ y) (hy2 : y ≤ m) :
    ∃ out, fill_missing_values df = some out ∧
      (out.filter (fun r =>
        decide (rowKey r = (code, some y, some c, none)))).length = 1 ∧
      ∀ rr : Row,
        (df.filter (fun r =>
          decide (rowKey r = (code, some y, some c, none)))).head? = some rr →
        out.filter (fun r =>
          decide (rowKey r = (code, some y, some c, none))) = [rr] := by
  have hcodes : code ∈ (df.map Row.indicator_code).dedup :=
    List.mem_dedup.mpr (List.mem_map.mpr ⟨r0, hr0, hcode⟩)
  have hctry : some c ∈ ((df.filter (fun r =>
      decide (r.level = some 2))).map Row.country).dedup := by
    refine List.mem_dedup.mpr (List.mem_map.mpr ⟨r0, ?_, hc0⟩)
    exact List.mem_filter.mpr ⟨hr0, by simp [hl0]⟩
  have hdfc : r0 ∈ df.filter (fun r => decide (r.indicator_code = code)) :=
    List.mem_filter.mpr ⟨hr0, by simp [hcode]⟩
  have hlvl2 : levelAtLeast (df.filter (fun r =>
      decide (r.indicator_code = code))) 2 = true :=
    levelAtLeast_of_mem hdfc hl0 (le_refl 2)
  have hymem : y ∈ yearsRange m := mem_yearsRange hy1 hy2
  have hfr : ∃ fr ∈ fillerRows df m,
      rowKey fr = (code, some y, some c, none) := by
    refine ⟨{ fillerBase code
        ((df.filter (fun r => decide (r.indicator_code = code))).head?.bind
          Row.indicator_name)
        ((df.filter (fun r => decide (r.indicator_code = code))).head?.bind
          Row.unit) y with
        level := some 2, country := some c }, ?_, rfl⟩
    simp only [fillerRows]
    refine List.mem_flatMap.mpr ⟨code, hcodes, ?_⟩
    refine List.mem_flatMap.mpr ⟨y, hymem, ?_⟩
    refine List.mem_cons_of_mem _ ?_
    refine List.mem_flatMap.mpr ⟨some c, hctry, ?_⟩
    refine List.mem_append.mpr (Or.inl ?_)
    rw [hlvl2]
    simp
  obtain ⟨fr, hfrm, hfrk⟩ := hfr
  have hfull := uniqueByKey_filter (df ++ fillerRows df m) []
    (code, some y, some c, none)
  rw [if_neg (List.not_mem_nil _), List.filter_append] at hfull
  have hfrfil : fr ∈ (fillerRows df m).filter (fun r =>
      decide (rowKey r = (code, some y, some c, none))) :=
    List.mem_filter.mpr ⟨hfrm, by simp [hfrk]⟩
  refine ⟨uniqueByKey [] (df ++ fillerRows df m), ?_, ?_, ?_⟩
  · unfold fill_missing_values
    rw [hmax]
  · rw [hfull]
    apply take_one_length_of_ne_nil
    intro hnil
    rw [List.append_eq_nil] at hnil
    rw [hnil.2] at hfrfil
    exact List.not_mem_nil fr hfrfil
  · intro rr hrr
    rw [hfull]
    rcases hfp : df.filter (fun r =>
        decide (rowKey r = (code, some y, some c, none))) with _ | ⟨a, t⟩
    · rw [hfp] at hrr
      simp at hrr
    · rw [hfp] at hrr
      simp at hrr
      subst hrr
      rfl

/-- Witness for C4 at a concrete input: a single level-2 count row for
(IR-2, 2022, Mali) is preserved by the filler, and the (IR-2, 2022, Mali)
key appears exactly once after filling. -/
theorem fill_missing_values_complete_witness :
    ∃ out, fill_missing_values [sampleCountY1] = some out ∧
      (out.filter (fun r =>
        decide (rowKey r = ("IR-2", some 2022, some "Mali", none)))).length = 1 ∧
      ∀ rr : Row,
        ([sampleCountY1].filter (fun r =>
          decide (rowKey r = ("IR-2", some 2022, some "Mali", none)))).head? =
          some rr →
        out.filter (fun r =>
          decide (rowKey r = ("IR-2", some 2022, some "Mali", none))) = [rr] := by
  refine fill_missing_values_complete [sampleCountY1] "IR-2" "Mali" 2022 2022
    ?_ sampleCountY1 ?_ ?_ ?_ ?_ ?_ ?_ ?_
  · intro r hr
    rcases List.mem_cons.mp hr with rfl | hr2
    · simp [sampleCountY1]
    · simp at hr2
  · simp
  · rfl
  · rfl
  · rfl
  · rfl
  · norm_num
  · norm_num

end Praps
